import Mathlib

/-!
# ThreadX Linux/GNU port: interrupt posture control

A shallow embedding of `ports/linux/gnu/src/tx_thread_interrupt_control.c`:
the routine `_tx_thread_interrupt_control` and its two wrappers
`_tx_thread_interrupt_disable` and `_tx_thread_interrupt_restore`.

The C routine works on process-wide variables and on the host mutex.  Here the
variables are the fields of `State`, the calling host thread (the value of
`pthread_self ()`) is an explicit argument, and a call yields an `Outcome`:
it completes with a return value and a new state, it ends in `pthread_exit`,
or it waits at `pthread_mutex_lock` because another host thread owns the mutex.
-/

namespace ThreadX

/-! ## Data model -/

/-- C type `UINT`. No arithmetic is done on these values, only comparisons. -/
abbrev UINT := Nat

/-- C type `ULONG`. -/
abbrev ULONG := Nat

/-- Host thread identity, as returned by `pthread_self ()`. -/
abbrev pthread_t := Nat

/-- Modelled from the spec: the constant `TX_INT_ENABLE` is defined in the port
header `tx_port.h`, which is not among the sources; the spec has the two
postures ENABLE and DISABLE as distinct values. The value is the port's. -/
def TX_INT_ENABLE : UINT := 0

/-- Modelled from the spec: the constant `TX_INT_DISABLE` is defined in the port
header `tx_port.h`, which is not among the sources; the spec has the two
postures ENABLE and DISABLE as distinct values. The value is the port's. -/
def TX_INT_DISABLE : UINT := 1

/-- Modelled from the spec: the constant `TX_TRUE` (a set disabled flag) is
defined in `tx_api.h`, which is not among the sources. -/
def TX_TRUE : ULONG := 1

/-- Modelled from the spec: the constant `TX_FALSE` (a clear disabled flag) is
defined in `tx_api.h`, which is not among the sources. -/
def TX_FALSE : ULONG := 0

/-- Modelled from the spec: the host mutex type is not among the sources. The
spec describes "a recursive, ownership-tracked lock" with "a readable current
recursion count": `owner` is the host thread holding the lock, if any, and
`count` is the recursion count that `tx_linux_mutex_recursive_count` reads. -/
structure pthread_mutex_t where
  owner : Option pthread_t
  count : Nat
deriving DecidableEq

/-- The fields of the thread control block `TX_THREAD` that the routine uses. -/
structure TX_THREAD where
  tx_thread_linux_thread_id : pthread_t
  tx_thread_linux_int_disabled_flag : UINT
deriving DecidableEq

/-- The variables the routine reads and writes. `threads` is the memory holding
the thread control blocks, addressed by the value of a non-null `TX_THREAD *`;
`_tx_thread_current_ptr = none` is the null pointer. `_tx_linux_threadx_thread`
is a per-host-thread variable, hence indexed by the host thread. -/
structure State where
  _tx_linux_mutex : pthread_mutex_t
  _tx_linux_threadx_thread : pthread_t → Int
  _tx_thread_current_ptr : Option Nat
  _tx_thread_system_state : ULONG
  _tx_linux_global_int_disabled_flag : ULONG
  threads : Nat → TX_THREAD

/-- How a call ends: it returns `ret` in state `st`; or the calling host thread
is terminated by `pthread_exit` in state `st`; or the caller waits at
`pthread_mutex_lock`, the mutex being owned by another host thread. -/
inductive Outcome (α : Type) where
  | completed (ret : α) (st : State)
  | terminateCaller (st : State)
  | blocked

/-! ## The host lock primitives -/

/-- Modelled from the spec: `pthread_mutex_lock` on the recursive mutex (host
library, not among the sources). A free lock is taken with count 1, the owner
re-acquires with the count one higher, and any other caller waits (`none`). -/
def pthread_mutex_lock (m : pthread_mutex_t) (self : pthread_t) : Option pthread_mutex_t :=
  match m.owner with
  | none => some { owner := some self, count := 1 }
  | some o => if o = self then some { m with count := m.count + 1 } else none

/-- Modelled from the spec: `pthread_mutex_unlock` on the recursive mutex (host
library, not among the sources). The owner gives up one level, and the lock is
free once the count reaches zero; a caller that is not the owner changes
nothing. -/
def pthread_mutex_unlock (m : pthread_mutex_t) (self : pthread_t) : pthread_mutex_t :=
  if m.owner = some self then
    if m.count - 1 ≠ 0 then { m with count := m.count - 1 }
    else { owner := none, count := 0 }
  else m

/-- The loop of `tx_linux_mutex_recursive_unlock`: `n` calls of
`pthread_mutex_unlock`. -/
def recursive_unlock_loop : Nat → pthread_mutex_t → pthread_t → pthread_mutex_t
  | 0, m, _ => m
  | n + 1, m, self => recursive_unlock_loop n (pthread_mutex_unlock m self) self

/-- Modelled from the spec: the macro `tx_linux_mutex_recursive_unlock` is
defined in the port header `tx_port.h`, which is not among the sources. The spec
says of it that the controller "releases the lock (fully, via the
recursive-unlock primitive)": it reads the recursion count and calls
`pthread_mutex_unlock` that many times. -/
def tx_linux_mutex_recursive_unlock (m : pthread_mutex_t) (self : pthread_t) : pthread_mutex_t :=
  recursive_unlock_loop m.count m self

/-- `pthread_equal`. -/
def pthread_equal (a b : pthread_t) : Bool := a == b

/-! ## The routine -/

/-- The test of lines 112-113, on the state after the entry acquisition:
the caller is a ThreadX host thread and there is no current thread or the
current thread is recorded with another host thread. -/
def orphan_guard (s : State) (self : pthread_t) : Bool :=
  (s._tx_linux_threadx_thread self != 0) &&
    (match s._tx_thread_current_ptr with
     | none => true
     | some t => !(pthread_equal (s.threads t).tx_thread_linux_thread_id self))

/-- Store to `thread_ptr -> tx_thread_linux_int_disabled_flag`. -/
def set_thread_flag (s : State) (t : Nat) (v : UINT) : State :=
  let tcb : TX_THREAD :=
    { tx_thread_linux_thread_id := (s.threads t).tx_thread_linux_thread_id,
      tx_thread_linux_int_disabled_flag := v }
  { s with threads := Function.update s.threads t tcb }

/-- Lines 92-181 with the recursive-unlock macro as a parameter. -/
def interrupt_control_with (recursive_unlock : pthread_mutex_t → pthread_t → pthread_mutex_t)
    (s : State) (self : pthread_t) (new_posture : UINT) : Outcome UINT :=
  -- line 102: lock the mutex
  match pthread_mutex_lock s._tx_linux_mutex self with
  | none => Outcome.blocked
  | some m =>
    let s1 : State := { s with _tx_linux_mutex := m }
    -- lines 112-121: the caller was terminated by ThreadX
    if orphan_guard s1 self then
      Outcome.terminateCaller { s1 with _tx_linux_mutex := recursive_unlock s1._tx_linux_mutex self }
    else
      -- lines 124-135: the current lockout condition
      let old_posture : UINT :=
        if s1._tx_linux_mutex.count = 1 then TX_INT_ENABLE else TX_INT_DISABLE
      -- line 138: a call from a non-thread
      if s1._tx_thread_system_state ≠ 0 then
        if new_posture = TX_INT_ENABLE then
          let s2 : State := { s1 with _tx_linux_global_int_disabled_flag := TX_FALSE }
          Outcome.completed old_posture
            { s2 with _tx_linux_mutex := recursive_unlock s2._tx_linux_mutex self }
        else if new_posture = TX_INT_DISABLE then
          Outcome.completed old_posture { s1 with _tx_linux_global_int_disabled_flag := TX_TRUE }
        else
          Outcome.completed old_posture s1
      else
        -- line 158: a call from a thread
        match s1._tx_thread_current_ptr with
        | some t =>
          if new_posture = TX_INT_ENABLE then
            let s2 : State := set_thread_flag s1 t TX_FALSE
            Outcome.completed old_posture
              { s2 with _tx_linux_mutex := recursive_unlock s2._tx_linux_mutex self }
          else if new_posture = TX_INT_DISABLE then
            Outcome.completed old_posture (set_thread_flag s1 t TX_TRUE)
          else
            Outcome.completed old_posture s1
        | none => Outcome.completed old_posture s1

/-- The routine `_tx_thread_interrupt_control (new_posture)`, called by host
thread `self` in state `s`. -/
def _tx_thread_interrupt_control (s : State) (self : pthread_t) (new_posture : UINT) :
    Outcome UINT :=
  interrupt_control_with tx_linux_mutex_recursive_unlock s self new_posture

/-- The wrapper `_tx_thread_interrupt_disable ()`. -/
def _tx_thread_interrupt_disable (s : State) (self : pthread_t) : Outcome UINT :=
  _tx_thread_interrupt_control s self TX_INT_DISABLE

/-- The wrapper `_tx_thread_interrupt_restore (previous_posture)`: the value
returned by the routine is dropped. -/
def _tx_thread_interrupt_restore (s : State) (self : pthread_t) (previous_posture : UINT) :
    Outcome Unit :=
  match _tx_thread_interrupt_control s self previous_posture with
  | Outcome.completed _ st => Outcome.completed () st
  | Outcome.terminateCaller st => Outcome.terminateCaller st
  | Outcome.blocked => Outcome.blocked

/-! ## Vocabulary of the claims -/

/-- The number of levels of the lock that host thread `self` holds. -/
def lock_depth (m : pthread_mutex_t) (self : pthread_t) : Nat :=
  if m.owner = some self then m.count else 0

/-- The entry acquisition of line 102 does not wait: the lock is free or the
caller owns it. -/
def lock_available (m : pthread_mutex_t) (self : pthread_t) : Prop :=
  m.owner = none ∨ m.owner = some self

instance (m : pthread_mutex_t) (self : pthread_t) : Decidable (lock_available m self) := by
  unfold lock_available; infer_instance

/-- The posture of the caller as the spec defines it: DISABLED exactly when the
caller holds the lock. -/
def posture_in_effect (s : State) (self : pthread_t) : UINT :=
  if lock_depth s._tx_linux_mutex self = 0 then TX_INT_ENABLE else TX_INT_DISABLE

/-- The free lock. -/
def free_mutex : pthread_mutex_t := { owner := none, count := 0 }

/-- The disabled flag of the calling context, chosen as lines 138 and 158 choose
it: the global flag for a non-thread caller, else the flag of the current
thread; `none` when there is neither. -/
def context_disabled_flag (s : State) : Option ULONG :=
  if s._tx_thread_system_state ≠ 0 then some s._tx_linux_global_int_disabled_flag
  else match s._tx_thread_current_ptr with
    | some t => some (s.threads t).tx_thread_linux_int_disabled_flag
    | none => none

/-- The condition of the orphaned-thread guard in the words of the spec: the
caller is a kernel thread, and there is no current thread context or its
recorded host-thread identity is not the caller's. -/
def orphan_condition (s : State) (self : pthread_t) : Prop :=
  s._tx_linux_threadx_thread self ≠ 0 ∧
    (s._tx_thread_current_ptr = none ∨
      ∃ t, s._tx_thread_current_ptr = some t ∧ (s.threads t).tx_thread_linux_thread_id ≠ self)

/-- The value a completed call returns. -/
def Outcome.ret? {α : Type} : Outcome α → Option α
  | Outcome.completed r _ => some r
  | Outcome.terminateCaller _ => none
  | Outcome.blocked => none

/-- The state a call leaves, when it does not wait. -/
def Outcome.st? {α : Type} : Outcome α → Option State
  | Outcome.completed _ st => some st
  | Outcome.terminateCaller st => some st
  | Outcome.blocked => none

/-- The lock depth of `self` in the state a call leaves. -/
def Outcome.depth? {α : Type} (o : Outcome α) (self : pthread_t) : Option Nat :=
  (Outcome.st? o).map (fun st => lock_depth st._tx_linux_mutex self)

/-- A state with the given lock, system state and current thread pointer, where
no caller is a kernel thread, all flags are clear and thread control block `t`
is recorded with host thread `t`. -/
def sample_state (m : pthread_mutex_t) (sys : ULONG) (cur : Option Nat) : State :=
  { _tx_linux_mutex := m,
    _tx_linux_threadx_thread := fun _ => 0,
    _tx_thread_current_ptr := cur,
    _tx_thread_system_state := sys,
    _tx_linux_global_int_disabled_flag := TX_FALSE,
    threads := fun t => { tx_thread_linux_thread_id := t,
                          tx_thread_linux_int_disabled_flag := TX_FALSE } }

/-- A state as `sample_state` in which every host thread is a kernel thread. -/
def sample_thread_state (m : pthread_mutex_t) (sys : ULONG) (cur : Option Nat) : State :=
  { sample_state m sys cur with _tx_linux_threadx_thread := fun _ => 1 }

/-- Two states have the same calling context: the variables that select the
branch of the routine and the recorded host-thread identities agree. -/
def same_context (s st : State) : Prop :=
  st._tx_linux_threadx_thread = s._tx_linux_threadx_thread ∧
  st._tx_thread_current_ptr = s._tx_thread_current_ptr ∧
  st._tx_thread_system_state = s._tx_thread_system_state ∧
  ∀ t, (st.threads t).tx_thread_linux_thread_id = (s.threads t).tx_thread_linux_thread_id

/-- The caller is a system (non-thread) context or there is a current thread
context: one of the two branches of lines 138 and 158 is taken. -/
def has_context (s : State) : Prop :=
  s._tx_thread_system_state ≠ 0 ∨ s._tx_thread_current_ptr ≠ none

instance (s : State) : Decidable (has_context s) := by
  unfold has_context; infer_instance

/-- The call-site pattern `token = _tx_thread_interrupt_disable ();
_tx_thread_interrupt_restore (token);`. -/
def disable_restore (s : State) (self : pthread_t) : Outcome Unit :=
  match _tx_thread_interrupt_disable s self with
  | Outcome.completed token s1 => _tx_thread_interrupt_restore s1 self token
  | Outcome.terminateCaller st => Outcome.terminateCaller st
  | Outcome.blocked => Outcome.blocked

/-- A call of the routine made after an earlier call has completed. -/
def Outcome.then_control {α : Type} (o : Outcome α) (self : pthread_t) (new_posture : UINT) :
    Outcome UINT :=
  match o with
  | Outcome.completed _ st => _tx_thread_interrupt_control st self new_posture
  | Outcome.terminateCaller st => Outcome.terminateCaller st
  | Outcome.blocked => Outcome.blocked

/-- A sequence of calls of the routine by one host thread, nothing else running
in between: the values returned and the final state, or `none` when some call
does not complete. The recursive-unlock macro is a parameter. -/
def run_calls_with (recursive_unlock : pthread_mutex_t → pthread_t → pthread_mutex_t)
    (s : State) (self : pthread_t) : List UINT → Option (List UINT × State)
  | [] => some ([], s)
  | p :: ps =>
    match interrupt_control_with recursive_unlock s self p with
    | Outcome.completed r st =>
      match run_calls_with recursive_unlock st self ps with
      | some (rs, sf) => some (r :: rs, sf)
      | none => none
    | Outcome.terminateCaller _ => none
    | Outcome.blocked => none

/-- A sequence of calls of `_tx_thread_interrupt_control`. -/
def run_calls (s : State) (self : pthread_t) (ps : List UINT) : Option (List UINT × State) :=
  run_calls_with tx_linux_mutex_recursive_unlock s self ps

/-- The spec's count of outstanding DISABLE requests after a sequence of calls:
the number of DISABLEs less the number of ENABLEs, starting from `d`. -/
def outstanding_disables (d : Nat) : List UINT → Nat
  | [] => d
  | p :: ps => outstanding_disables (if p = TX_INT_DISABLE then d + 1 else d - 1) ps

/-- The spec's side condition that no ENABLE is issued at depth 0. -/
def no_enable_at_depth_zero (d : Nat) : List UINT → Bool
  | [] => true
  | p :: ps =>
    (p = TX_INT_DISABLE || decide (0 < d)) &&
      no_enable_at_depth_zero (if p = TX_INT_DISABLE then d + 1 else d - 1) ps

/-- The values the spec's net-balance rule expects a sequence of calls to
return: ENABLE when the preceding calls are balanced, else DISABLE. -/
def net_balance_returns (d : Nat) : List UINT → List UINT
  | [] => []
  | p :: ps =>
    (if d = 0 then TX_INT_ENABLE else TX_INT_DISABLE) ::
      net_balance_returns (if p = TX_INT_DISABLE then d + 1 else d - 1) ps

/-- The spec's posture/lock invariant for caller `self`: the disabled flag of
the calling context is `TX_TRUE` if and only if the caller holds the lock. -/
def posture_lock_invariant (s : State) (self : pthread_t) : Prop :=
  context_disabled_flag s = some TX_TRUE ↔ 1 ≤ lock_depth s._tx_linux_mutex self

/-- The initial ENABLED state of a system or thread context: the lock is free
and the disabled flag of the context is clear. -/
def initial_enabled (s : State) : Prop :=
  s._tx_linux_mutex = free_mutex ∧ context_disabled_flag s = some TX_FALSE

/-- The states host thread `self` reaches from an initial ENABLED state by
completing calls of the routine with ENABLE or DISABLE. -/
inductive reachable (self : pthread_t) : State → Prop where
  | init (s : State) : initial_enabled s → reachable self s
  | call (s st : State) (p r : UINT) :
      reachable self s → (p = TX_INT_ENABLE ∨ p = TX_INT_DISABLE) →
      _tx_thread_interrupt_control s self p = Outcome.completed r st → reachable self st

/-- The outcome of a call with the returned value dropped, as a caller that
ignores the value sees it. -/
def Outcome.discard {α : Type} : Outcome α → Outcome Unit
  | Outcome.completed _ st => Outcome.completed () st
  | Outcome.terminateCaller st => Outcome.terminateCaller st
  | Outcome.blocked => Outcome.blocked

/-- The call ended in `pthread_exit`. -/
def Outcome.terminated {α : Type} : Outcome α → Bool
  | Outcome.completed _ _ => false
  | Outcome.terminateCaller _ => true
  | Outcome.blocked => false

/-- A call of one of the two wrappers. -/
inductive WrapperCall where
  | disable
  | restore (token : UINT)

/-- The outcome of a wrapper call by host thread `self`, the returned value
dropped. -/
def WrapperCall.run (c : WrapperCall) (s : State) (self : pthread_t) : Outcome Unit :=
  match c with
  | WrapperCall.disable => (_tx_thread_interrupt_disable s self).discard
  | WrapperCall.restore token => _tx_thread_interrupt_restore s self token

/-- The state after host thread `self` attempts a wrapper call: a call that
waits at the entry acquisition leaves the state as it is. -/
def attempt (s : State) (self : pthread_t) (c : WrapperCall) : State :=
  match WrapperCall.run c s self with
  | Outcome.completed _ st => st
  | Outcome.terminateCaller st => st
  | Outcome.blocked => s

/-- An interleaving of host threads at the granularity of calls: the attempts
are made one after the other, each by the host thread named with it. The body
of a call runs with the lock held, from line 102 on. -/
def interleave (s : State) : List (pthread_t × WrapperCall) → State
  | [] => s
  | e :: rest => interleave (attempt s e.1 e.2) rest

/-- Host thread `self` is inside a DISABLED region: it holds the lock. -/
def in_disabled_region (s : State) (self : pthread_t) : Prop :=
  1 ≤ lock_depth s._tx_linux_mutex self

instance (s : State) (self : pthread_t) : Decidable (in_disabled_region s self) := by
  unfold in_disabled_region; infer_instance

/-! ## Lemmas on the lock primitives -/

theorem pthread_mutex_lock_available (m : pthread_mutex_t) (self : pthread_t)
    (h : lock_available m self) :
    pthread_mutex_lock m self = some { owner := some self, count := lock_depth m self + 1 } := by
  obtain ⟨o, c⟩ := m
  rcases h with h | h
  · simp only at h; subst h
    simp [pthread_mutex_lock, lock_depth]
  · simp only at h; subst h
    simp [pthread_mutex_lock, lock_depth]

theorem recursive_unlock_loop_free (self : pthread_t) :
    ∀ n : Nat, recursive_unlock_loop n free_mutex self = free_mutex := by
  intro n
  induction n with
  | zero => rfl
  | succ j ihj =>
    have h : pthread_mutex_unlock free_mutex self = free_mutex := by
      simp [pthread_mutex_unlock, free_mutex]
    rw [recursive_unlock_loop, h]; exact ihj

theorem recursive_unlock_loop_owned (self : pthread_t) :
    ∀ (n c : Nat), 1 ≤ n → c ≤ n →
      recursive_unlock_loop n { owner := some self, count := c } self = free_mutex := by
  intro n
  induction n with
  | zero => intro c h; omega
  | succ k ih =>
    intro c _ hc
    by_cases hk : c - 1 = 0
    · have h1 : pthread_mutex_unlock { owner := some self, count := c } self = free_mutex := by
        simp [pthread_mutex_unlock, hk, free_mutex]
      rw [recursive_unlock_loop, h1]
      exact recursive_unlock_loop_free self k
    · have h1 : pthread_mutex_unlock { owner := some self, count := c } self
          = { owner := some self, count := c - 1 } := by
        simp [pthread_mutex_unlock, hk]
      rw [recursive_unlock_loop, h1]
      exact ih (c - 1) (by omega) (by omega)

theorem tx_linux_mutex_recursive_unlock_owned (self : pthread_t) (d : Nat) :
    tx_linux_mutex_recursive_unlock { owner := some self, count := d + 1 } self = free_mutex := by
  unfold tx_linux_mutex_recursive_unlock
  exact recursive_unlock_loop_owned self (d + 1) (d + 1) (by omega) (by omega)

/-! ## The routine in closed form -/

/-- The state after the entry acquisition of line 102. -/
theorem orphan_guard_mutex (s : State) (m : pthread_mutex_t) (self : pthread_t) :
    orphan_guard { s with _tx_linux_mutex := m } self = orphan_guard s self := rfl

/-- When the entry acquisition does not wait, the routine is the following
case distinction on the state before the call. -/
theorem interrupt_control_closed_form (s : State) (self : pthread_t) (new_posture : UINT)
    (h : lock_available s._tx_linux_mutex self) :
    _tx_thread_interrupt_control s self new_posture =
      if orphan_guard s self then
        Outcome.terminateCaller { s with _tx_linux_mutex := free_mutex }
      else if s._tx_thread_system_state ≠ 0 then
        if new_posture = TX_INT_ENABLE then
          Outcome.completed (posture_in_effect s self)
            { s with _tx_linux_mutex := free_mutex,
                     _tx_linux_global_int_disabled_flag := TX_FALSE }
        else if new_posture = TX_INT_DISABLE then
          Outcome.completed (posture_in_effect s self)
            { s with _tx_linux_mutex :=
                       { owner := some self, count := lock_depth s._tx_linux_mutex self + 1 },
                     _tx_linux_global_int_disabled_flag := TX_TRUE }
        else
          Outcome.completed (posture_in_effect s self)
            { s with _tx_linux_mutex :=
                       { owner := some self, count := lock_depth s._tx_linux_mutex self + 1 } }
      else
        match s._tx_thread_current_ptr with
        | some t =>
          if new_posture = TX_INT_ENABLE then
            Outcome.completed (posture_in_effect s self)
              { set_thread_flag s t TX_FALSE with _tx_linux_mutex := free_mutex }
          else if new_posture = TX_INT_DISABLE then
            Outcome.completed (posture_in_effect s self)
              { set_thread_flag s t TX_TRUE with _tx_linux_mutex :=
                  { owner := some self, count := lock_depth s._tx_linux_mutex self + 1 } }
          else
            Outcome.completed (posture_in_effect s self)
              { s with _tx_linux_mutex :=
                         { owner := some self, count := lock_depth s._tx_linux_mutex self + 1 } }
        | none =>
          Outcome.completed (posture_in_effect s self)
            { s with _tx_linux_mutex :=
                       { owner := some self, count := lock_depth s._tx_linux_mutex self + 1 } } := by
  unfold _tx_thread_interrupt_control interrupt_control_with
  rw [pthread_mutex_lock_available _ _ h]
  simp only [orphan_guard_mutex, tx_linux_mutex_recursive_unlock_owned, set_thread_flag,
    posture_in_effect, Nat.add_left_eq_self]

theorem orphan_guard_iff (s : State) (self : pthread_t) :
    orphan_guard s self = true ↔ orphan_condition s self := by
  unfold orphan_guard orphan_condition pthread_equal
  cases hc : s._tx_thread_current_ptr <;> simp

theorem interrupt_control_blocked (s : State) (self : pthread_t) (new_posture : UINT)
    (h : ¬ lock_available s._tx_linux_mutex self) :
    _tx_thread_interrupt_control s self new_posture = Outcome.blocked := by
  unfold _tx_thread_interrupt_control interrupt_control_with pthread_mutex_lock
  unfold lock_available at h
  cases ho : s._tx_linux_mutex.owner with
  | none => exact absurd (Or.inl ho) h
  | some o =>
    have hne : o ≠ self := fun e => h (Or.inr (by rw [ho, e]))
    simp [hne]

theorem lock_depth_free (self : pthread_t) : lock_depth free_mutex self = 0 := by
  simp [lock_depth, free_mutex]

theorem lock_depth_owned (self : pthread_t) (c : Nat) :
    lock_depth { owner := some self, count := c } self = c := by
  simp [lock_depth]

/-- A call that passes the entry acquisition and the guard completes, and it
returns the posture in effect before the call. -/
theorem interrupt_control_completes (s : State) (self : pthread_t) (new_posture : UINT)
    (hlock : lock_available s._tx_linux_mutex self) (hguard : orphan_guard s self = false) :
    ∃ st, _tx_thread_interrupt_control s self new_posture
      = Outcome.completed (posture_in_effect s self) st := by
  rw [interrupt_control_closed_form s self new_posture hlock]
  simp only [hguard, Bool.false_eq_true, if_false]
  cases s._tx_thread_current_ptr <;> (split_ifs <;> exact ⟨_, rfl⟩)

theorem set_thread_flag_id (s : State) (t : Nat) (v : UINT) (u : Nat) :
    ((set_thread_flag s t v).threads u).tx_thread_linux_thread_id
      = (s.threads u).tx_thread_linux_thread_id := by
  unfold set_thread_flag
  by_cases h : u = t
  · subst h; simp
  · simp [Function.update, h]

theorem set_thread_flag_flag (s : State) (t : Nat) (v : UINT) :
    ((set_thread_flag s t v).threads t).tx_thread_linux_int_disabled_flag = v := by
  simp [set_thread_flag]

theorem same_context_guard (s st : State) (self : pthread_t) (h : same_context s st) :
    orphan_guard st self = orphan_guard s self := by
  obtain ⟨h1, h2, _, h4⟩ := h
  unfold orphan_guard
  rw [h1, h2]
  cases s._tx_thread_current_ptr with
  | none => rfl
  | some t => simp only [h4]

theorem same_context_has_context (s st : State) (h : same_context s st) (hc : has_context s) :
    has_context st := by
  obtain ⟨_, h2, h3, _⟩ := h
  unfold has_context at *
  rw [h2, h3]; exact hc

theorem same_context_trans (a b c : State) (h1 : same_context a b) (h2 : same_context b c) :
    same_context a c := by
  obtain ⟨a1, a2, a3, a4⟩ := h1
  obtain ⟨b1, b2, b3, b4⟩ := h2
  exact ⟨b1.trans a1, b2.trans a2, b3.trans a3, fun t => (b4 t).trans (a4 t)⟩

/-- The ENABLE transition of a system or thread context. -/
theorem step_enable (s : State) (self : pthread_t)
    (hlock : lock_available s._tx_linux_mutex self) (hguard : orphan_guard s self = false)
    (hctx : has_context s) :
    ∃ st, _tx_thread_interrupt_control s self TX_INT_ENABLE
        = Outcome.completed (posture_in_effect s self) st ∧
      st._tx_linux_mutex = free_mutex ∧
      context_disabled_flag st = some TX_FALSE ∧
      same_context s st := by
  rw [interrupt_control_closed_form s self _ hlock]
  simp only [hguard, Bool.false_eq_true, if_false, if_true]
  by_cases hsys : s._tx_thread_system_state = 0
  · cases hcur : s._tx_thread_current_ptr with
    | none => exact absurd hcur (by rcases hctx with h | h; exact absurd hsys h; exact h)
    | some t =>
      simp only [hsys, ne_eq, not_true_eq_false, if_false]
      refine ⟨_, rfl, rfl, ?_, rfl, ?_, ?_, ?_⟩
      · have : (set_thread_flag s t TX_FALSE)._tx_thread_system_state = 0 := hsys
        have hc : (set_thread_flag s t TX_FALSE)._tx_thread_current_ptr = some t := hcur
        simp [context_disabled_flag, this, hc, set_thread_flag_flag]
      · rfl
      · rfl
      · intro u; exact set_thread_flag_id s t TX_FALSE u
  · simp only [ne_eq, hsys, not_false_eq_true, if_true]
    refine ⟨_, rfl, rfl, ?_, rfl, rfl, rfl, fun _ => rfl⟩
    simp [context_disabled_flag, hsys]

/-- The DISABLE transition of a system or thread context. -/
theorem step_disable (s : State) (self : pthread_t)
    (hlock : lock_available s._tx_linux_mutex self) (hguard : orphan_guard s self = false)
    (hctx : has_context s) :
    ∃ st, _tx_thread_interrupt_control s self TX_INT_DISABLE
        = Outcome.completed (posture_in_effect s self) st ∧
      st._tx_linux_mutex
        = { owner := some self, count := lock_depth s._tx_linux_mutex self + 1 } ∧
      context_disabled_flag st = some TX_TRUE ∧
      same_context s st := by
  rw [interrupt_control_closed_form s self _ hlock]
  have hne : TX_INT_DISABLE ≠ TX_INT_ENABLE := by decide
  simp only [hguard, Bool.false_eq_true, if_false, if_true, hne]
  by_cases hsys : s._tx_thread_system_state = 0
  · cases hcur : s._tx_thread_current_ptr with
    | none => exact absurd hcur (by rcases hctx with h | h; exact absurd hsys h; exact h)
    | some t =>
      simp only [hsys, ne_eq, not_true_eq_false, if_false]
      refine ⟨_, rfl, rfl, ?_, rfl, ?_, ?_, ?_⟩
      · have : (set_thread_flag s t TX_TRUE)._tx_thread_system_state = 0 := hsys
        have hc : (set_thread_flag s t TX_TRUE)._tx_thread_current_ptr = some t := hcur
        simp [context_disabled_flag, this, hc, set_thread_flag_flag]
      · rfl
      · rfl
      · intro u; exact set_thread_flag_id s t TX_TRUE u
  · simp only [ne_eq, hsys, not_false_eq_true, if_true]
    refine ⟨_, rfl, rfl, ?_, rfl, rfl, rfl, fun _ => rfl⟩
    simp [context_disabled_flag, hsys]

theorem lock_available_free (self : pthread_t) : lock_available free_mutex self :=
  Or.inl rfl

theorem lock_available_owned (self : pthread_t) (c : Nat) :
    lock_available { owner := some self, count := c } self :=
  Or.inr rfl

theorem interrupt_restore_completed (s st : State) (self : pthread_t) (p r : UINT)
    (h : _tx_thread_interrupt_control s self p = Outcome.completed r st) :
    _tx_thread_interrupt_restore s self p = Outcome.completed () st := by
  unfold _tx_thread_interrupt_restore
  rw [h]

theorem context_flag_thread (st : State) (t : Nat) (v : ULONG)
    (hsys : st._tx_thread_system_state = 0) (hcur : st._tx_thread_current_ptr = some t)
    (h : context_disabled_flag st = some v) :
    (st.threads t).tx_thread_linux_int_disabled_flag = v := by
  simpa [context_disabled_flag, hsys, hcur] using h

theorem context_flag_system (st : State) (v : ULONG)
    (hsys : st._tx_thread_system_state ≠ 0)
    (h : context_disabled_flag st = some v) :
    st._tx_linux_global_int_disabled_flag = v := by
  simpa [context_disabled_flag, hsys] using h

theorem posture_in_effect_free (s : State) (self : pthread_t)
    (h : s._tx_linux_mutex.owner = none) : posture_in_effect s self = TX_INT_ENABLE := by
  simp [posture_in_effect, lock_depth, h]

theorem posture_in_effect_owned (s : State) (self : pthread_t) (c : Nat)
    (h : s._tx_linux_mutex = { owner := some self, count := c + 1 }) :
    posture_in_effect s self = TX_INT_DISABLE := by
  simp [posture_in_effect, lock_depth, h]

theorem run_calls_cons_completed (s st sf : State) (self : pthread_t) (p r : UINT)
    (ps rs : List UINT)
    (h1 : _tx_thread_interrupt_control s self p = Outcome.completed r st)
    (h2 : run_calls st self ps = some (rs, sf)) :
    run_calls s self (p :: ps) = some (r :: rs, sf) := by
  unfold run_calls at *
  unfold _tx_thread_interrupt_control at h1
  rw [run_calls_with, h1]
  simp only [h2]

/-- In a system or thread context every call of a DISABLE/ENABLE sequence
completes, and it returns the posture in effect at the start for the first call
and the request of the call before it for every later call. -/
theorem run_calls_shift (self : pthread_t) :
    ∀ (ps : List UINT) (s : State),
      lock_available s._tx_linux_mutex self → orphan_guard s self = false → has_context s →
      (∀ p ∈ ps, p = TX_INT_ENABLE ∨ p = TX_INT_DISABLE) →
      ∃ sf, run_calls s self ps = some ((posture_in_effect s self :: ps).dropLast, sf) := by
  intro ps
  induction ps with
  | nil => intro s _ _ _ _; exact ⟨s, rfl⟩
  | cons p ps ih =>
    intro s hlock hguard hctx hps
    have hp := hps p (List.mem_cons_self p ps)
    have hrest : ∀ q ∈ ps, q = TX_INT_ENABLE ∨ q = TX_INT_DISABLE :=
      fun q hq => hps q (List.mem_cons_of_mem p hq)
    have key : ∃ st, _tx_thread_interrupt_control s self p
          = Outcome.completed (posture_in_effect s self) st ∧
        lock_available st._tx_linux_mutex self ∧ orphan_guard st self = false ∧
        has_context st ∧ posture_in_effect st self = p := by
      rcases hp with hp | hp
      · obtain ⟨st, e, m, _, c⟩ := step_enable s self hlock hguard hctx
        refine ⟨st, by rw [hp]; exact e, ?_, (same_context_guard s st self c).trans hguard,
          same_context_has_context s st c hctx, ?_⟩
        · rw [m]; exact lock_available_free self
        · rw [hp]; exact posture_in_effect_free st self (by rw [m]; rfl)
      · obtain ⟨st, e, m, _, c⟩ := step_disable s self hlock hguard hctx
        refine ⟨st, by rw [hp]; exact e, ?_, (same_context_guard s st self c).trans hguard,
          same_context_has_context s st c hctx, ?_⟩
        · rw [m]; exact lock_available_owned _ _
        · rw [hp]; exact posture_in_effect_owned st self _ m
    obtain ⟨st, e, a, g, x, hpost⟩ := key
    obtain ⟨sf, hsf⟩ := ih st a g x hrest
    rw [hpost] at hsf
    exact ⟨sf, by
      rw [List.dropLast_cons₂]
      exact run_calls_cons_completed s st sf self p _ ps _ e hsf⟩

theorem set_thread_flag_same (s : State) (t : Nat)
    (h : (s.threads t).tx_thread_linux_int_disabled_flag = v) :
    set_thread_flag s t v = s := by
  unfold set_thread_flag
  have e : ({ tx_thread_linux_thread_id := (s.threads t).tx_thread_linux_thread_id,
              tx_thread_linux_int_disabled_flag := v } : TX_THREAD) = s.threads t := by
    rw [← h]
  simp only [e, Function.update_eq_self]

theorem has_context_of_flag (s : State) (v : ULONG) (h : context_disabled_flag s = some v) :
    has_context s := by
  unfold context_disabled_flag at h
  unfold has_context
  by_cases hsys : s._tx_thread_system_state = 0
  · right
    intro hc
    simp [hsys, hc] at h
  · exact Or.inl hsys

/-- A completing ENABLE or DISABLE call of a system or thread context
establishes the posture/lock invariant, whatever the state before. -/
theorem call_establishes_invariant (s st : State) (self : pthread_t) (p r : UINT)
    (hctx : has_context s) (hp : p = TX_INT_ENABLE ∨ p = TX_INT_DISABLE)
    (hcall : _tx_thread_interrupt_control s self p = Outcome.completed r st) :
    posture_lock_invariant st self ∧ has_context st := by
  by_cases hlock : lock_available s._tx_linux_mutex self
  · by_cases hguard : orphan_guard s self = true
    · rw [interrupt_control_closed_form s self p hlock] at hcall
      simp only [hguard, if_true] at hcall
      cases hcall
    · have hg : orphan_guard s self = false := by simpa using hguard
      rcases hp with hp | hp
      · obtain ⟨st2, e, m, f, c⟩ := step_enable s self hlock hg hctx
        rw [hp, e] at hcall
        cases hcall
        refine ⟨?_, same_context_has_context s _ c hctx⟩
        unfold posture_lock_invariant
        rw [f, m, lock_depth_free]
        simp [TX_TRUE, TX_FALSE]
      · obtain ⟨st2, e, m, f, c⟩ := step_disable s self hlock hg hctx
        rw [hp, e] at hcall
        cases hcall
        refine ⟨?_, same_context_has_context s _ c hctx⟩
        unfold posture_lock_invariant
        rw [f, m, lock_depth_owned]
        simp
  · rw [interrupt_control_blocked s self p hlock] at hcall
    cases hcall

theorem reachable_invariant (self : pthread_t) (s : State) (h : reachable self s) :
    posture_lock_invariant s self ∧ has_context s := by
  induction h with
  | init s hinit =>
    obtain ⟨hm, hf⟩ := hinit
    refine ⟨?_, has_context_of_flag s _ hf⟩
    unfold posture_lock_invariant
    rw [hf, hm, lock_depth_free]
    simp [TX_TRUE, TX_FALSE]
  | call s st p r _ hp hcall ih =>
    exact call_establishes_invariant s st self p r ih.2 hp hcall

/-! ## The claims -/

/-- C1: when the orphan guard does not fire (and the entry acquisition does not
wait), the routine completes and returns `TX_INT_ENABLE` exactly when the
recursion count read after the entry acquisition is 1, which is exactly when the
caller held no level of the lock before the call, and `TX_INT_DISABLE` for every
deeper count; the returned value is the posture in effect before the call. -/
theorem C1_old_posture_from_recursion_count (s : State) (self : pthread_t) (new_posture : UINT)
    (hlock : lock_available s._tx_linux_mutex self) (hguard : orphan_guard s self = false) :
    ∃ m r st, pthread_mutex_lock s._tx_linux_mutex self = some m ∧
      _tx_thread_interrupt_control s self new_posture = Outcome.completed r st ∧
      (r = TX_INT_ENABLE ↔ m.count = 1) ∧
      (m.count ≠ 1 → r = TX_INT_DISABLE) ∧
      (m.count = 1 ↔ lock_depth s._tx_linux_mutex self = 0) ∧
      r = posture_in_effect s self := by
  obtain ⟨st, hst⟩ := interrupt_control_completes s self new_posture hlock hguard
  refine ⟨_, posture_in_effect s self, st, pthread_mutex_lock_available _ _ hlock, hst, ?_, ?_, ?_, rfl⟩
  · by_cases hd : lock_depth s._tx_linux_mutex self = 0 <;>
      simp [posture_in_effect, hd, TX_INT_ENABLE, TX_INT_DISABLE]
  · intro hd
    have hd' : lock_depth s._tx_linux_mutex self ≠ 0 := by simpa using hd
    simp [posture_in_effect, hd']
  · simp

theorem C1_old_posture_from_recursion_count_witness :
    ∃ m r st, pthread_mutex_lock (sample_state ⟨some 7, 2⟩ 1 none)._tx_linux_mutex 7 = some m ∧
      _tx_thread_interrupt_control (sample_state ⟨some 7, 2⟩ 1 none) 7 TX_INT_ENABLE
        = Outcome.completed r st ∧
      (r = TX_INT_ENABLE ↔ m.count = 1) ∧
      (m.count ≠ 1 → r = TX_INT_DISABLE) ∧
      (m.count = 1 ↔ lock_depth (sample_state ⟨some 7, 2⟩ 1 none)._tx_linux_mutex 7 = 0) ∧
      r = posture_in_effect (sample_state ⟨some 7, 2⟩ 1 none) 7 :=
  C1_old_posture_from_recursion_count (sample_state ⟨some 7, 2⟩ 1 none) 7 TX_INT_ENABLE
    (Or.inr rfl) rfl

/-- C2: nested disable in one thread context. From the ENABLED state (lock free,
guard not firing; the thread flag may have any value) the first
`_tx_thread_interrupt_disable` returns `TX_INT_ENABLE` and the second returns
`TX_INT_DISABLE`; after `_tx_thread_interrupt_restore` with the second token the
context is still DISABLED (lock held, thread flag set), and after the restore
with the first token it is ENABLED again (lock free, thread flag clear). -/
theorem C2_nested_disable_restore (s : State) (self : pthread_t) (t : Nat)
    (hfree : s._tx_linux_mutex.owner = none)
    (hsys : s._tx_thread_system_state = 0)
    (hcur : s._tx_thread_current_ptr = some t)
    (hguard : orphan_guard s self = false) :
    ∃ s1 s2 s3 s4,
      _tx_thread_interrupt_disable s self = Outcome.completed TX_INT_ENABLE s1 ∧
      _tx_thread_interrupt_disable s1 self = Outcome.completed TX_INT_DISABLE s2 ∧
      _tx_thread_interrupt_restore s2 self TX_INT_DISABLE = Outcome.completed () s3 ∧
      _tx_thread_interrupt_restore s3 self TX_INT_ENABLE = Outcome.completed () s4 ∧
      (1 ≤ lock_depth s3._tx_linux_mutex self ∧
        (s3.threads t).tx_thread_linux_int_disabled_flag = TX_TRUE) ∧
      (lock_depth s4._tx_linux_mutex self = 0 ∧ s4._tx_linux_mutex.owner = none ∧
        (s4.threads t).tx_thread_linux_int_disabled_flag = TX_FALSE) := by
  have hctx : has_context s := Or.inr (by simp [hcur])
  have hd0 : lock_depth s._tx_linux_mutex self = 0 := by simp [lock_depth, hfree]
  obtain ⟨s1, e1, m1, _, c1⟩ := step_disable s self (Or.inl hfree) hguard hctx
  rw [hd0] at m1
  have a1 : lock_available s1._tx_linux_mutex self := by rw [m1]; exact lock_available_owned _ _
  have g1 : orphan_guard s1 self = false := (same_context_guard s s1 self c1).trans hguard
  have x1 := same_context_has_context s s1 c1 hctx
  obtain ⟨s2, e2, m2, _, c2⟩ := step_disable s1 self a1 g1 x1
  rw [m1, lock_depth_owned] at m2
  have a2 : lock_available s2._tx_linux_mutex self := by rw [m2]; exact lock_available_owned _ _
  have g2 : orphan_guard s2 self = false := (same_context_guard s1 s2 self c2).trans g1
  have x2 := same_context_has_context s1 s2 c2 x1
  obtain ⟨s3, e3, m3, f3, c3⟩ := step_disable s2 self a2 g2 x2
  rw [m2, lock_depth_owned] at m3
  have a3 : lock_available s3._tx_linux_mutex self := by rw [m3]; exact lock_available_owned _ _
  have g3 : orphan_guard s3 self = false := (same_context_guard s2 s3 self c3).trans g2
  have x3 := same_context_has_context s2 s3 c3 x2
  obtain ⟨s4, e4, m4, f4, c4⟩ := step_enable s3 self a3 g3 x3
  have k3 := same_context_trans s s2 s3 (same_context_trans s s1 s2 c1 c2) c3
  have k4 := same_context_trans s s3 s4 k3 c4
  refine ⟨s1, s2, s3, s4, ?_, ?_, ?_, ?_, ⟨?_, ?_⟩, ?_, ?_, ?_⟩
  · rw [posture_in_effect_free s self hfree] at e1; exact e1
  · rw [posture_in_effect_owned s1 self 0 m1] at e2; exact e2
  · exact interrupt_restore_completed _ _ _ _ _ e3
  · exact interrupt_restore_completed _ _ _ _ _ e4
  · rw [m3, lock_depth_owned]; omega
  · exact context_flag_thread s3 t _ (k3.2.2.1.trans hsys) (k3.2.1.trans hcur) f3
  · rw [m4]; exact lock_depth_free self
  · rw [m4]; rfl
  · exact context_flag_thread s4 t _ (k4.2.2.1.trans hsys) (k4.2.1.trans hcur) f4

theorem C2_nested_disable_restore_witness :
    ∃ s1 s2 s3 s4,
      _tx_thread_interrupt_disable (sample_thread_state free_mutex 0 (some 3)) 3
        = Outcome.completed TX_INT_ENABLE s1 ∧
      _tx_thread_interrupt_disable s1 3 = Outcome.completed TX_INT_DISABLE s2 ∧
      _tx_thread_interrupt_restore s2 3 TX_INT_DISABLE = Outcome.completed () s3 ∧
      _tx_thread_interrupt_restore s3 3 TX_INT_ENABLE = Outcome.completed () s4 ∧
      (1 ≤ lock_depth s3._tx_linux_mutex 3 ∧
        (s3.threads 3).tx_thread_linux_int_disabled_flag = TX_TRUE) ∧
      (lock_depth s4._tx_linux_mutex 3 = 0 ∧ s4._tx_linux_mutex.owner = none ∧
        (s4.threads 3).tx_thread_linux_int_disabled_flag = TX_FALSE) :=
  C2_nested_disable_restore (sample_thread_state free_mutex 0 (some 3)) 3 3 rfl rfl rfl rfl

/-- C3, the claim as stated fails: with no system state and no current thread
(caller not a kernel thread, lock free) the routine returns `TX_INT_ENABLE`
before the disable/restore pair and `TX_INT_DISABLE` after it. -/
theorem C3_counterexample :
    orphan_guard (sample_state free_mutex 0 none) 7 = false ∧
    (_tx_thread_interrupt_control (sample_state free_mutex 0 none) 7 TX_INT_DISABLE).ret?
      = some TX_INT_ENABLE ∧
    ((disable_restore (sample_state free_mutex 0 none) 7).then_control 7 TX_INT_DISABLE).ret?
      = some TX_INT_DISABLE := by
  refine ⟨rfl, rfl, rfl⟩

/-- C3 (amended): for every non-orphan state of a system or thread context,
`token = _tx_thread_interrupt_disable ()` followed by
`_tx_thread_interrupt_restore (token)` completes, and a call of the routine
after the pair returns the same old posture as a call made before the pair. -/
theorem C3_disable_restore_symmetry (s : State) (self : pthread_t)
    (hlock : lock_available s._tx_linux_mutex self) (hguard : orphan_guard s self = false)
    (hctx : has_context s) :
    ∃ token s1 s2,
      _tx_thread_interrupt_disable s self = Outcome.completed token s1 ∧
      _tx_thread_interrupt_restore s1 self token = Outcome.completed () s2 ∧
      disable_restore s self = Outcome.completed () s2 ∧
      ∀ p q, ∃ r sa sb,
        _tx_thread_interrupt_control s self p = Outcome.completed r sa ∧
        _tx_thread_interrupt_control s2 self q = Outcome.completed r sb := by
  obtain ⟨s1, e1, m1, _, c1⟩ := step_disable s self hlock hguard hctx
  have a1 : lock_available s1._tx_linux_mutex self := by rw [m1]; exact lock_available_owned _ _
  have g1 : orphan_guard s1 self = false := (same_context_guard s s1 self c1).trans hguard
  have x1 := same_context_has_context s s1 c1 hctx
  have key : ∃ s2, _tx_thread_interrupt_control s1 self (posture_in_effect s self)
        = Outcome.completed TX_INT_DISABLE s2 ∧
      lock_available s2._tx_linux_mutex self ∧ orphan_guard s2 self = false ∧
      posture_in_effect s2 self = posture_in_effect s self := by
    have hp1 : posture_in_effect s1 self = TX_INT_DISABLE := posture_in_effect_owned s1 self _ m1
    by_cases hd : lock_depth s._tx_linux_mutex self = 0
    · have hp : posture_in_effect s self = TX_INT_ENABLE := by simp [posture_in_effect, hd]
      obtain ⟨s2, e2, m2, _, c2⟩ := step_enable s1 self a1 g1 x1
      refine ⟨s2, ?_, ?_, (same_context_guard s1 s2 self c2).trans g1, ?_⟩
      · rw [hp, e2, hp1]
      · rw [m2]; exact lock_available_free self
      · rw [hp]; exact posture_in_effect_free s2 self (by rw [m2]; rfl)
    · have hp : posture_in_effect s self = TX_INT_DISABLE := by simp [posture_in_effect, hd]
      obtain ⟨s2, e2, m2, _, c2⟩ := step_disable s1 self a1 g1 x1
      refine ⟨s2, ?_, ?_, (same_context_guard s1 s2 self c2).trans g1, ?_⟩
      · rw [hp, e2, hp1]
      · rw [m2]; exact lock_available_owned _ _
      · rw [hp]; exact posture_in_effect_owned s2 self _ m2
  obtain ⟨s2, e2, a2, g2, p2⟩ := key
  have r2 := interrupt_restore_completed _ _ _ _ _ e2
  refine ⟨posture_in_effect s self, s1, s2, e1, r2, ?_, ?_⟩
  · have e1' : _tx_thread_interrupt_disable s self
        = Outcome.completed (posture_in_effect s self) s1 := e1
    unfold disable_restore
    rw [e1']; exact r2
  · intro p q
    obtain ⟨sa, ha⟩ := interrupt_control_completes s self p hlock hguard
    obtain ⟨sb, hb⟩ := interrupt_control_completes s2 self q a2 g2
    rw [p2] at hb
    exact ⟨_, sa, sb, ha, hb⟩

theorem C3_disable_restore_symmetry_witness :
    ∃ token s1 s2,
      _tx_thread_interrupt_disable (sample_state ⟨some 7, 1⟩ 1 none) 7
        = Outcome.completed token s1 ∧
      _tx_thread_interrupt_restore s1 7 token = Outcome.completed () s2 ∧
      disable_restore (sample_state ⟨some 7, 1⟩ 1 none) 7 = Outcome.completed () s2 ∧
      ∀ p q, ∃ r sa sb,
        _tx_thread_interrupt_control (sample_state ⟨some 7, 1⟩ 1 none) 7 p
          = Outcome.completed r sa ∧
        _tx_thread_interrupt_control s2 7 q = Outcome.completed r sb :=
  C3_disable_restore_symmetry (sample_state ⟨some 7, 1⟩ 1 none) 7 (Or.inr rfl) rfl
    (Or.inl (by decide))

/-- C4, the claim as stated fails: in a system context starting from ENABLED the
calls DISABLE, DISABLE, ENABLE, DISABLE return ENABLE, DISABLE, DISABLE, ENABLE,
where the net-balance rule expects DISABLE for the fourth call (one DISABLE is
still outstanding). Were the recursive-unlock macro to release one level only,
the rule would fail as well: DISABLE, ENABLE, DISABLE would return ENABLE,
DISABLE, DISABLE, where the rule expects ENABLE for the third call. -/
theorem C4_counterexample :
    (no_enable_at_depth_zero 0
        [TX_INT_DISABLE, TX_INT_DISABLE, TX_INT_ENABLE, TX_INT_DISABLE] = true ∧
      outstanding_disables 0 [TX_INT_DISABLE, TX_INT_DISABLE, TX_INT_ENABLE] = 1 ∧
      net_balance_returns 0 [TX_INT_DISABLE, TX_INT_DISABLE, TX_INT_ENABLE, TX_INT_DISABLE]
        = [TX_INT_ENABLE, TX_INT_DISABLE, TX_INT_DISABLE, TX_INT_DISABLE] ∧
      (run_calls (sample_state free_mutex 1 none) 7
          [TX_INT_DISABLE, TX_INT_DISABLE, TX_INT_ENABLE, TX_INT_DISABLE]).map Prod.fst
        = some [TX_INT_ENABLE, TX_INT_DISABLE, TX_INT_DISABLE, TX_INT_ENABLE]) ∧
    (no_enable_at_depth_zero 0 [TX_INT_DISABLE, TX_INT_ENABLE, TX_INT_DISABLE] = true ∧
      outstanding_disables 0 [TX_INT_DISABLE, TX_INT_ENABLE] = 0 ∧
      net_balance_returns 0 [TX_INT_DISABLE, TX_INT_ENABLE, TX_INT_DISABLE]
        = [TX_INT_ENABLE, TX_INT_DISABLE, TX_INT_ENABLE] ∧
      (run_calls_with pthread_mutex_unlock (sample_state free_mutex 1 none) 7
          [TX_INT_DISABLE, TX_INT_ENABLE, TX_INT_DISABLE]).map Prod.fst
        = some [TX_INT_ENABLE, TX_INT_DISABLE, TX_INT_DISABLE]) := by
  refine ⟨⟨rfl, rfl, rfl, rfl⟩, rfl, rfl, rfl, rfl⟩

/-- C4 (amended): for every finite sequence of DISABLE/ENABLE calls of the
routine by one system or thread context, starting from ENABLED with nothing in
between, every call completes; the first call returns `TX_INT_ENABLE` and every
later call returns the posture that the call before it requested. -/
theorem C4_returns_follow_previous_request (s : State) (self : pthread_t) (ps : List UINT)
    (hfree : s._tx_linux_mutex.owner = none) (hguard : orphan_guard s self = false)
    (hctx : has_context s)
    (hps : ∀ p ∈ ps, p = TX_INT_ENABLE ∨ p = TX_INT_DISABLE) :
    ∃ rs sf, run_calls s self ps = some (rs, sf) ∧
      rs = (TX_INT_ENABLE :: ps).dropLast ∧
      rs.length = ps.length ∧
      (∀ i p, ps[i]? = some p → i + 1 < ps.length → rs[i + 1]? = some p) ∧
      (ps ≠ [] → rs[0]? = some TX_INT_ENABLE) := by
  obtain ⟨sf, h⟩ := run_calls_shift self ps s (Or.inl hfree) hguard hctx hps
  rw [posture_in_effect_free s self hfree] at h
  refine ⟨_, sf, h, rfl, by simp, ?_, ?_⟩
  · intro i p hi hlt
    rw [List.getElem?_dropLast]
    simp [hlt, hi]
  · intro hne
    cases ps with
    | nil => exact absurd rfl hne
    | cons q qs => simp [List.dropLast_cons₂]

theorem C4_returns_follow_previous_request_witness :
    ∃ rs sf, run_calls (sample_state free_mutex 1 none) 7
        [TX_INT_DISABLE, TX_INT_DISABLE, TX_INT_ENABLE, TX_INT_DISABLE] = some (rs, sf) ∧
      rs = (TX_INT_ENABLE ::
        [TX_INT_DISABLE, TX_INT_DISABLE, TX_INT_ENABLE, TX_INT_DISABLE]).dropLast ∧
      rs.length = [TX_INT_DISABLE, TX_INT_DISABLE, TX_INT_ENABLE, TX_INT_DISABLE].length ∧
      (∀ i p, [TX_INT_DISABLE, TX_INT_DISABLE, TX_INT_ENABLE, TX_INT_DISABLE][i]? = some p →
        i + 1 < [TX_INT_DISABLE, TX_INT_DISABLE, TX_INT_ENABLE, TX_INT_DISABLE].length →
        rs[i + 1]? = some p) ∧
      ([TX_INT_DISABLE, TX_INT_DISABLE, TX_INT_ENABLE, TX_INT_DISABLE] ≠ [] →
        rs[0]? = some TX_INT_ENABLE) :=
  C4_returns_follow_previous_request (sample_state free_mutex 1 none) 7
    [TX_INT_DISABLE, TX_INT_DISABLE, TX_INT_ENABLE, TX_INT_DISABLE] rfl rfl
    (Or.inl (by decide)) (by decide)

/-- C5: system-context scenario. With `_tx_thread_system_state` non-zero, the
caller not a kernel thread and the lock free (the global flag clear or not),
`_tx_thread_interrupt_disable` returns `TX_INT_ENABLE` and leaves the global
flag `TX_TRUE`; the following `_tx_thread_interrupt_restore (TX_INT_ENABLE)`
leaves the global flag `TX_FALSE` and the lock free. -/
theorem C5_system_context_scenario (s : State) (self : pthread_t)
    (hsys : s._tx_thread_system_state ≠ 0)
    (hkernel : s._tx_linux_threadx_thread self = 0)
    (hfree : s._tx_linux_mutex.owner = none) :
    ∃ s1 s2,
      _tx_thread_interrupt_disable s self = Outcome.completed TX_INT_ENABLE s1 ∧
      s1._tx_linux_global_int_disabled_flag = TX_TRUE ∧
      lock_depth s1._tx_linux_mutex self = 1 ∧
      _tx_thread_interrupt_restore s1 self TX_INT_ENABLE = Outcome.completed () s2 ∧
      s2._tx_linux_global_int_disabled_flag = TX_FALSE ∧
      s2._tx_linux_mutex.owner = none ∧
      lock_depth s2._tx_linux_mutex self = 0 := by
  have hguard : orphan_guard s self = false := by simp [orphan_guard, hkernel]
  have hctx : has_context s := Or.inl hsys
  have hd0 : lock_depth s._tx_linux_mutex self = 0 := by simp [lock_depth, hfree]
  obtain ⟨s1, e1, m1, f1, c1⟩ := step_disable s self (Or.inl hfree) hguard hctx
  rw [hd0] at m1
  rw [posture_in_effect_free s self hfree] at e1
  have a1 : lock_available s1._tx_linux_mutex self := by rw [m1]; exact lock_available_owned _ _
  have g1 : orphan_guard s1 self = false := (same_context_guard s s1 self c1).trans hguard
  have x1 := same_context_has_context s s1 c1 hctx
  have hs1 : s1._tx_thread_system_state ≠ 0 := by rw [c1.2.2.1]; exact hsys
  obtain ⟨s2, e2, m2, f2, c2⟩ := step_enable s1 self a1 g1 x1
  have hs2 : s2._tx_thread_system_state ≠ 0 := by rw [c2.2.2.1]; exact hs1
  refine ⟨s1, s2, e1, context_flag_system s1 _ hs1 f1, ?_,
    interrupt_restore_completed _ _ _ _ _ e2, context_flag_system s2 _ hs2 f2, ?_, ?_⟩
  · rw [m1, lock_depth_owned]
  · rw [m2]; rfl
  · rw [m2]; exact lock_depth_free self

theorem C5_system_context_scenario_witness :
    ∃ s1 s2,
      _tx_thread_interrupt_disable (sample_state free_mutex 1 none) 7
        = Outcome.completed TX_INT_ENABLE s1 ∧
      s1._tx_linux_global_int_disabled_flag = TX_TRUE ∧
      lock_depth s1._tx_linux_mutex 7 = 1 ∧
      _tx_thread_interrupt_restore s1 7 TX_INT_ENABLE = Outcome.completed () s2 ∧
      s2._tx_linux_global_int_disabled_flag = TX_FALSE ∧
      s2._tx_linux_mutex.owner = none ∧
      lock_depth s2._tx_linux_mutex 7 = 0 :=
  C5_system_context_scenario (sample_state free_mutex 1 none) 7 (by decide) rfl rfl

/-- C6: with the result modelled as completed or terminate-caller, a call that
passes the entry acquisition ends in terminate-caller if and only if the caller
is a kernel thread and the current thread pointer is null or the current
thread is recorded with another host thread; in every other state it completes
and returns `TX_INT_ENABLE` or `TX_INT_DISABLE`. -/
theorem C6_terminate_iff_orphan (s : State) (self : pthread_t) (new_posture : UINT)
    (hlock : lock_available s._tx_linux_mutex self) :
    ((∃ st, _tx_thread_interrupt_control s self new_posture = Outcome.terminateCaller st) ↔
      (s._tx_linux_threadx_thread self ≠ 0 ∧
        (s._tx_thread_current_ptr = none ∨
          ∃ t, s._tx_thread_current_ptr = some t ∧
            (s.threads t).tx_thread_linux_thread_id ≠ self))) ∧
    (¬ (s._tx_linux_threadx_thread self ≠ 0 ∧
        (s._tx_thread_current_ptr = none ∨
          ∃ t, s._tx_thread_current_ptr = some t ∧
            (s.threads t).tx_thread_linux_thread_id ≠ self)) →
      ∃ r st, _tx_thread_interrupt_control s self new_posture = Outcome.completed r st ∧
        (r = TX_INT_ENABLE ∨ r = TX_INT_DISABLE)) := by
  have hiff := orphan_guard_iff s self
  unfold orphan_condition at hiff
  have hcompl : orphan_guard s self = false →
      ∃ r st, _tx_thread_interrupt_control s self new_posture = Outcome.completed r st ∧
        (r = TX_INT_ENABLE ∨ r = TX_INT_DISABLE) := by
    intro hg
    obtain ⟨st, hst⟩ := interrupt_control_completes s self new_posture hlock hg
    refine ⟨_, st, hst, ?_⟩
    unfold posture_in_effect
    split_ifs
    · exact Or.inl rfl
    · exact Or.inr rfl
  constructor
  · constructor
    · rintro ⟨st, hst⟩
      by_cases hg : orphan_guard s self = true
      · exact hiff.mp hg
      · obtain ⟨r, st2, h2, _⟩ := hcompl (by simpa using hg)
        rw [h2] at hst
        cases hst
    · intro hc
      have hg := hiff.mpr hc
      rw [interrupt_control_closed_form s self new_posture hlock]
      simp only [hg, if_true]
      exact ⟨_, rfl⟩
  · intro hn
    have hg : orphan_guard s self = false := by
      by_cases hg : orphan_guard s self = true
      · exact absurd (hiff.mp hg) hn
      · simpa using hg
    exact hcompl hg

theorem C6_terminate_iff_orphan_witness :
    ((∃ st, _tx_thread_interrupt_control (sample_thread_state free_mutex 0 (some 3)) 7
          TX_INT_DISABLE = Outcome.terminateCaller st) ↔
      ((sample_thread_state free_mutex 0 (some 3))._tx_linux_threadx_thread 7 ≠ 0 ∧
        ((sample_thread_state free_mutex 0 (some 3))._tx_thread_current_ptr = none ∨
          ∃ t, (sample_thread_state free_mutex 0 (some 3))._tx_thread_current_ptr = some t ∧
            ((sample_thread_state free_mutex 0 (some 3)).threads t).tx_thread_linux_thread_id
              ≠ 7))) ∧
    (¬ ((sample_thread_state free_mutex 0 (some 3))._tx_linux_threadx_thread 7 ≠ 0 ∧
        ((sample_thread_state free_mutex 0 (some 3))._tx_thread_current_ptr = none ∨
          ∃ t, (sample_thread_state free_mutex 0 (some 3))._tx_thread_current_ptr = some t ∧
            ((sample_thread_state free_mutex 0 (some 3)).threads t).tx_thread_linux_thread_id
              ≠ 7)) →
      ∃ r st, _tx_thread_interrupt_control (sample_thread_state free_mutex 0 (some 3)) 7
          TX_INT_DISABLE = Outcome.completed r st ∧
        (r = TX_INT_ENABLE ∨ r = TX_INT_DISABLE)) :=
  C6_terminate_iff_orphan (sample_thread_state free_mutex 0 (some 3)) 7 TX_INT_DISABLE
    (Or.inl rfl)

/-- C7: on the orphan path (the caller is a kernel thread, and there is no
current thread or it is recorded with another host thread), for every
`new_posture` and every prior lock depth, the routine ends in terminate-caller
with the lock fully released and with the global disabled flag and every thread
control block exactly as before the call. -/
theorem C7_orphan_path_releases_lock_only (s : State) (self : pthread_t) (new_posture : UINT)
    (hlock : lock_available s._tx_linux_mutex self)
    (hkernel : s._tx_linux_threadx_thread self ≠ 0)
    (horphan : s._tx_thread_current_ptr = none ∨
      ∃ t, s._tx_thread_current_ptr = some t ∧ (s.threads t).tx_thread_linux_thread_id ≠ self) :
    ∃ st, _tx_thread_interrupt_control s self new_posture = Outcome.terminateCaller st ∧
      st._tx_linux_mutex.owner = none ∧ st._tx_linux_mutex.count = 0 ∧
      lock_depth st._tx_linux_mutex self = 0 ∧
      st._tx_linux_global_int_disabled_flag = s._tx_linux_global_int_disabled_flag ∧
      st.threads = s.threads ∧
      (∀ t, (st.threads t).tx_thread_linux_int_disabled_flag
        = (s.threads t).tx_thread_linux_int_disabled_flag) := by
  have hg : orphan_guard s self = true := (orphan_guard_iff s self).mpr ⟨hkernel, horphan⟩
  rw [interrupt_control_closed_form s self new_posture hlock]
  simp only [hg, if_true]
  exact ⟨_, rfl, rfl, rfl, lock_depth_free self, rfl, rfl, fun _ => rfl⟩

theorem C7_orphan_path_releases_lock_only_witness :
    ∃ st, _tx_thread_interrupt_control (sample_thread_state ⟨some 7, 2⟩ 0 (some 3)) 7
        TX_INT_ENABLE = Outcome.terminateCaller st ∧
      st._tx_linux_mutex.owner = none ∧ st._tx_linux_mutex.count = 0 ∧
      lock_depth st._tx_linux_mutex 7 = 0 ∧
      st._tx_linux_global_int_disabled_flag
        = (sample_thread_state ⟨some 7, 2⟩ 0 (some 3))._tx_linux_global_int_disabled_flag ∧
      st.threads = (sample_thread_state ⟨some 7, 2⟩ 0 (some 3)).threads ∧
      (∀ t, (st.threads t).tx_thread_linux_int_disabled_flag
        = ((sample_thread_state ⟨some 7, 2⟩ 0 (some 3)).threads t).tx_thread_linux_int_disabled_flag) :=
  C7_orphan_path_releases_lock_only (sample_thread_state ⟨some 7, 2⟩ 0 (some 3)) 7 TX_INT_ENABLE
    (Or.inr rfl) (by decide) (Or.inr ⟨3, rfl, by decide⟩)

/-- C8: idempotence of ENABLE at depth 0. In a system or thread context whose
guard does not fire and that is ENABLED (lock free, disabled flag of the
context clear), `_tx_thread_interrupt_control (TX_INT_ENABLE)` returns
`TX_INT_ENABLE` and leaves the state as it was, with recursion count 0; a second
call does the same as the first. -/
theorem C8_enable_at_depth_zero_idempotent (s : State) (self : pthread_t)
    (hguard : orphan_guard s self = false)
    (hfree : s._tx_linux_mutex = free_mutex)
    (hflag : context_disabled_flag s = some TX_FALSE) :
    _tx_thread_interrupt_control s self TX_INT_ENABLE = Outcome.completed TX_INT_ENABLE s ∧
    s._tx_linux_mutex.count = 0 ∧
    (_tx_thread_interrupt_control s self TX_INT_ENABLE).then_control self TX_INT_ENABLE
      = _tx_thread_interrupt_control s self TX_INT_ENABLE := by
  have hlock : lock_available s._tx_linux_mutex self := by
    rw [hfree]; exact lock_available_free self
  have h1 : _tx_thread_interrupt_control s self TX_INT_ENABLE
      = Outcome.completed TX_INT_ENABLE s := by
    rw [interrupt_control_closed_form s self _ hlock]
    have hpost : posture_in_effect s self = TX_INT_ENABLE :=
      posture_in_effect_free s self (by rw [hfree]; rfl)
    simp only [hguard, Bool.false_eq_true, if_false, if_true, hpost]
    by_cases hsys : s._tx_thread_system_state = 0
    · cases hcur : s._tx_thread_current_ptr with
      | none => simp [context_disabled_flag, hsys, hcur] at hflag
      | some t =>
        have hf := context_flag_thread s t _ hsys hcur hflag
        simp only [hsys, ne_eq, not_true_eq_false, if_false]
        rw [set_thread_flag_same s t hf, ← hfree]
    · have hf := context_flag_system s _ hsys hflag
      simp only [ne_eq, hsys, not_false_eq_true, if_true]
      rw [← hfree, ← hf]
  refine ⟨h1, by rw [hfree]; rfl, ?_⟩
  rw [h1]
  exact h1

theorem C8_enable_at_depth_zero_idempotent_witness :
    _tx_thread_interrupt_control (sample_thread_state free_mutex 0 (some 3)) 3 TX_INT_ENABLE
      = Outcome.completed TX_INT_ENABLE (sample_thread_state free_mutex 0 (some 3)) ∧
    (sample_thread_state free_mutex 0 (some 3))._tx_linux_mutex.count = 0 ∧
    (_tx_thread_interrupt_control (sample_thread_state free_mutex 0 (some 3)) 3
        TX_INT_ENABLE).then_control 3 TX_INT_ENABLE
      = _tx_thread_interrupt_control (sample_thread_state free_mutex 0 (some 3)) 3
          TX_INT_ENABLE :=
  C8_enable_at_depth_zero_idempotent (sample_thread_state free_mutex 0 (some 3)) 3 rfl rfl rfl

/-- C9: the posture/lock invariant (the disabled flag of the calling context is
`TX_TRUE` if and only if the caller holds the lock) holds in every state of a
system or thread context reached from an initial ENABLED state, the initial
state included, and every completing ENABLE or DISABLE call of the routine in
such a state leads to a state where it holds. -/
theorem C9_posture_lock_invariant (self : pthread_t) (s : State) (h : reachable self s) :
    posture_lock_invariant s self ∧
    ∀ p r st, (p = TX_INT_ENABLE ∨ p = TX_INT_DISABLE) →
      _tx_thread_interrupt_control s self p = Outcome.completed r st →
      posture_lock_invariant st self := by
  have hs := reachable_invariant self s h
  refine ⟨hs.1, ?_⟩
  intro p r st hp hcall
  exact (call_establishes_invariant s st self p r hs.2 hp hcall).1

theorem C9_posture_lock_invariant_witness :
    posture_lock_invariant
        { sample_state ⟨some 7, 1⟩ 1 none with _tx_linux_global_int_disabled_flag := TX_TRUE } 7 ∧
    ∀ p r st, (p = TX_INT_ENABLE ∨ p = TX_INT_DISABLE) →
      _tx_thread_interrupt_control
        { sample_state ⟨some 7, 1⟩ 1 none with _tx_linux_global_int_disabled_flag := TX_TRUE }
        7 p = Outcome.completed r st →
      posture_lock_invariant st 7 :=
  C9_posture_lock_invariant 7
    { sample_state ⟨some 7, 1⟩ 1 none with _tx_linux_global_int_disabled_flag := TX_TRUE }
    (reachable.call (sample_state free_mutex 1 none) _ TX_INT_DISABLE TX_INT_ENABLE
      (reachable.init _ ⟨rfl, rfl⟩) (Or.inr rfl) rfl)

/-- C10, the claim as stated fails: a system context holding the lock at depth 2
is left at depth 0 by `_tx_thread_interrupt_control (TX_INT_ENABLE)`, not at
depth 1, and so is ENABLED afterwards although the depth before was not 1. Were
the recursive-unlock macro to release one level only, the depth after the call
would be 2, again not 1. -/
theorem C10_counterexample :
    has_context (sample_state ⟨some 7, 2⟩ 1 none) ∧
    orphan_guard (sample_state ⟨some 7, 2⟩ 1 none) 7 = false ∧
    lock_depth (sample_state ⟨some 7, 2⟩ 1 none)._tx_linux_mutex 7 = 2 ∧
    (_tx_thread_interrupt_control (sample_state ⟨some 7, 2⟩ 1 none) 7 TX_INT_ENABLE).depth? 7
      = some 0 ∧
    (interrupt_control_with pthread_mutex_unlock (sample_state ⟨some 7, 2⟩ 1 none) 7
      TX_INT_ENABLE).depth? 7 = some 2 := by
  refine ⟨Or.inl (by decide), rfl, rfl, rfl, rfl⟩

/-- C10 (amended): for every system or thread context holding the lock at depth
`d ≥ 1` (guard not firing), `_tx_thread_interrupt_control (TX_INT_ENABLE)`
completes, returns `TX_INT_DISABLE` and leaves the lock free, the caller's
depth at 0: the context is ENABLED afterwards for every `d`, and the depth is
`d - 1` exactly when `d = 1`. -/
theorem C10_enable_releases_every_level (s : State) (self : pthread_t) (d : Nat)
    (hctx : has_context s) (hguard : orphan_guard s self = false)
    (hheld : s._tx_linux_mutex = { owner := some self, count := d })
    (hd : 1 ≤ d) :
    ∃ st, _tx_thread_interrupt_control s self TX_INT_ENABLE
        = Outcome.completed TX_INT_DISABLE st ∧
      st._tx_linux_mutex = free_mutex ∧
      lock_depth st._tx_linux_mutex self = 0 ∧
      context_disabled_flag st = some TX_FALSE ∧
      (lock_depth st._tx_linux_mutex self = d - 1 ↔ d = 1) := by
  have hlock : lock_available s._tx_linux_mutex self := by
    rw [hheld]; exact lock_available_owned self d
  obtain ⟨st, e, m, f, _⟩ := step_enable s self hlock hguard hctx
  have hpost : posture_in_effect s self = TX_INT_DISABLE := by
    apply posture_in_effect_owned s self (d - 1)
    rw [hheld, Nat.sub_add_cancel hd]
  rw [hpost] at e
  have h0 : lock_depth st._tx_linux_mutex self = 0 := by rw [m]; exact lock_depth_free self
  refine ⟨st, e, m, h0, f, ?_⟩
  rw [h0]; omega

theorem C10_enable_releases_every_level_witness :
    ∃ st, _tx_thread_interrupt_control (sample_state ⟨some 7, 2⟩ 1 none) 7 TX_INT_ENABLE
        = Outcome.completed TX_INT_DISABLE st ∧
      st._tx_linux_mutex = free_mutex ∧
      lock_depth st._tx_linux_mutex 7 = 0 ∧
      context_disabled_flag st = some TX_FALSE ∧
      (lock_depth st._tx_linux_mutex 7 = 2 - 1 ↔ 2 = 1) :=
  C10_enable_releases_every_level (sample_state ⟨some 7, 2⟩ 1 none) 7 2 (Or.inl (by decide))
    rfl rfl (by decide)

/-- C11: the DISABLE transition. For every system or thread context at lock
depth `d ≥ 0` whose guard does not fire, `_tx_thread_interrupt_control
(TX_INT_DISABLE)` completes and leaves the caller owning the lock at depth
`d + 1`, the lock being exactly the one the entry acquisition of the call
produced, with the disabled flag of the context `TX_TRUE`; from ENABLED
(`d = 0`) it returns `TX_INT_ENABLE` and ends at depth 1. -/
theorem C11_disable_adds_one_level (s : State) (self : pthread_t)
    (hctx : has_context s) (hguard : orphan_guard s self = false)
    (hlock : lock_available s._tx_linux_mutex self) :
    ∃ r st, _tx_thread_interrupt_control s self TX_INT_DISABLE = Outcome.completed r st ∧
      st._tx_linux_mutex.owner = some self ∧
      lock_depth st._tx_linux_mutex self = lock_depth s._tx_linux_mutex self + 1 ∧
      pthread_mutex_lock s._tx_linux_mutex self = some st._tx_linux_mutex ∧
      context_disabled_flag st = some TX_TRUE ∧
      (lock_depth s._tx_linux_mutex self = 0 →
        r = TX_INT_ENABLE ∧ lock_depth st._tx_linux_mutex self = 1) := by
  obtain ⟨st, e, m, f, _⟩ := step_disable s self hlock hguard hctx
  have hdepth : lock_depth st._tx_linux_mutex self = lock_depth s._tx_linux_mutex self + 1 := by
    rw [m, lock_depth_owned]
  refine ⟨_, st, e, by rw [m], hdepth, ?_, f, ?_⟩
  · rw [m]; exact pthread_mutex_lock_available _ _ hlock
  · intro h0
    refine ⟨by simp [posture_in_effect, h0], by rw [hdepth, h0]⟩

theorem C11_disable_adds_one_level_witness :
    ∃ r st, _tx_thread_interrupt_control (sample_thread_state ⟨some 3, 2⟩ 0 (some 3)) 3
        TX_INT_DISABLE = Outcome.completed r st ∧
      st._tx_linux_mutex.owner = some 3 ∧
      lock_depth st._tx_linux_mutex 3
        = lock_depth (sample_thread_state ⟨some 3, 2⟩ 0 (some 3))._tx_linux_mutex 3 + 1 ∧
      pthread_mutex_lock (sample_thread_state ⟨some 3, 2⟩ 0 (some 3))._tx_linux_mutex 3
        = some st._tx_linux_mutex ∧
      context_disabled_flag st = some TX_TRUE ∧
      (lock_depth (sample_thread_state ⟨some 3, 2⟩ 0 (some 3))._tx_linux_mutex 3 = 0 →
        r = TX_INT_ENABLE ∧ lock_depth st._tx_linux_mutex 3 = 1) :=
  C11_disable_adds_one_level (sample_thread_state ⟨some 3, 2⟩ 0 (some 3)) 3
    (Or.inr (by decide)) rfl (Or.inr rfl)

/-- C12, the claim as stated fails: with `_tx_thread_system_state` zero, no
current thread and a caller that is not a kernel thread, the lock is free
before the call and owned by the caller at depth 1 after it, for a DISABLE
request and for an ENABLE request alike: the call is not a no-op. -/
theorem C12_counterexample :
    (sample_state free_mutex 0 none)._tx_thread_system_state = 0 ∧
    (sample_state free_mutex 0 none)._tx_thread_current_ptr = none ∧
    orphan_guard (sample_state free_mutex 0 none) 7 = false ∧
    lock_depth (sample_state free_mutex 0 none)._tx_linux_mutex 7 = 0 ∧
    (_tx_thread_interrupt_control (sample_state free_mutex 0 none) 7 TX_INT_DISABLE).depth? 7
      = some 1 ∧
    (_tx_thread_interrupt_control (sample_state free_mutex 0 none) 7 TX_INT_ENABLE).depth? 7
      = some 1 := by
  refine ⟨rfl, rfl, rfl, rfl, rfl, rfl⟩

/-- C12 (amended): when `_tx_thread_system_state` is zero, the current thread
pointer is null and the guard does not fire, `_tx_thread_interrupt_control (p)`
completes for every `p`, returns the previous posture and changes the lock
only: the caller owns it at a depth one greater than before (the entry
acquisition is kept), and the global disabled flag, every thread control block
and the context variables are as before the call. -/
theorem C12_no_context_keeps_entry_acquisition (s : State) (self : pthread_t)
    (new_posture : UINT)
    (hsys : s._tx_thread_system_state = 0) (hcur : s._tx_thread_current_ptr = none)
    (hguard : orphan_guard s self = false)
    (hlock : lock_available s._tx_linux_mutex self) :
    _tx_thread_interrupt_control s self new_posture
      = Outcome.completed (posture_in_effect s self)
          { s with _tx_linux_mutex :=
              { owner := some self, count := lock_depth s._tx_linux_mutex self + 1 } } ∧
    pthread_mutex_lock s._tx_linux_mutex self
      = some { owner := some self, count := lock_depth s._tx_linux_mutex self + 1 } := by
  refine ⟨?_, pthread_mutex_lock_available _ _ hlock⟩
  rw [interrupt_control_closed_form s self new_posture hlock]
  simp only [hguard, Bool.false_eq_true, if_false, hsys, ne_eq, not_true_eq_false, hcur]

theorem C12_no_context_keeps_entry_acquisition_witness :
    _tx_thread_interrupt_control (sample_state ⟨some 7, 1⟩ 0 none) 7 TX_INT_ENABLE
      = Outcome.completed (posture_in_effect (sample_state ⟨some 7, 1⟩ 0 none) 7)
          { sample_state ⟨some 7, 1⟩ 0 none with _tx_linux_mutex :=
              { owner := some 7,
                count := lock_depth (sample_state ⟨some 7, 1⟩ 0 none)._tx_linux_mutex 7 + 1 } } ∧
    pthread_mutex_lock (sample_state ⟨some 7, 1⟩ 0 none)._tx_linux_mutex 7
      = some { owner := some 7,
               count := lock_depth (sample_state ⟨some 7, 1⟩ 0 none)._tx_linux_mutex 7 + 1 } :=
  C12_no_context_keeps_entry_acquisition (sample_state ⟨some 7, 1⟩ 0 none) 7 TX_INT_ENABLE
    rfl rfl rfl (Or.inr rfl)

/-- C13: the wrappers add no logic. For every state and caller,
`_tx_thread_interrupt_disable` is `_tx_thread_interrupt_control
(TX_INT_DISABLE)`, result and final state; and for every token value,
`_tx_thread_interrupt_restore` is `_tx_thread_interrupt_control` of that value
with the returned value dropped: same final state, same termination outcome,
and it returns exactly when the routine returns. -/
theorem C13_wrappers_delegate (s : State) (self : pthread_t) (token : UINT) :
    _tx_thread_interrupt_disable s self
      = _tx_thread_interrupt_control s self TX_INT_DISABLE ∧
    _tx_thread_interrupt_restore s self token
      = (_tx_thread_interrupt_control s self token).discard ∧
    (_tx_thread_interrupt_restore s self token).st?
      = (_tx_thread_interrupt_control s self token).st? ∧
    (_tx_thread_interrupt_restore s self token).terminated
      = (_tx_thread_interrupt_control s self token).terminated ∧
    ((_tx_thread_interrupt_restore s self token).ret?).isSome
      = ((_tx_thread_interrupt_control s self token).ret?).isSome := by
  refine ⟨rfl, ?_, ?_, ?_, ?_⟩ <;>
    (unfold _tx_thread_interrupt_restore
     cases _tx_thread_interrupt_control s self token <;> rfl)

/-- C14: thread-context flag effects. With `_tx_thread_system_state` zero and
the current thread `t` recorded with the caller, `_tx_thread_interrupt_control
(TX_INT_ENABLE)` leaves the flag of `t` `TX_FALSE` and the lock free, and
`_tx_thread_interrupt_control (TX_INT_DISABLE)` leaves the flag of `t`
`TX_TRUE`; in both cases the global disabled flag and the control blocks of all
other threads are as before the call. -/
theorem C14_thread_context_flag_effects (s : State) (self : pthread_t) (t : Nat)
    (hsys : s._tx_thread_system_state = 0)
    (hcur : s._tx_thread_current_ptr = some t)
    (hmatch : (s.threads t).tx_thread_linux_thread_id = self)
    (hlock : lock_available s._tx_linux_mutex self) :
    (∃ r st, _tx_thread_interrupt_control s self TX_INT_ENABLE = Outcome.completed r st ∧
      (st.threads t).tx_thread_linux_int_disabled_flag = TX_FALSE ∧
      st._tx_linux_mutex = free_mutex ∧
      lock_depth st._tx_linux_mutex self = 0 ∧
      st._tx_linux_global_int_disabled_flag = s._tx_linux_global_int_disabled_flag ∧
      (∀ u, u ≠ t → st.threads u = s.threads u)) ∧
    (∃ r st, _tx_thread_interrupt_control s self TX_INT_DISABLE = Outcome.completed r st ∧
      (st.threads t).tx_thread_linux_int_disabled_flag = TX_TRUE ∧
      lock_depth st._tx_linux_mutex self = lock_depth s._tx_linux_mutex self + 1 ∧
      st._tx_linux_global_int_disabled_flag = s._tx_linux_global_int_disabled_flag ∧
      (∀ u, u ≠ t → st.threads u = s.threads u)) := by
  have hguard : orphan_guard s self = false := by
    simp [orphan_guard, hcur, pthread_equal, hmatch]
  have hne : TX_INT_DISABLE ≠ TX_INT_ENABLE := by decide
  have hother : ∀ (v : UINT) (u : Nat), u ≠ t →
      (set_thread_flag s t v).threads u = s.threads u := by
    intro v u hu
    simp [set_thread_flag, Function.update, hu]
  constructor
  · rw [interrupt_control_closed_form s self _ hlock]
    simp only [hguard, Bool.false_eq_true, if_false, if_true, hsys, ne_eq, not_true_eq_false,
      hcur]
    exact ⟨_, _, rfl, set_thread_flag_flag s t TX_FALSE, rfl, lock_depth_free self, rfl,
      hother TX_FALSE⟩
  · rw [interrupt_control_closed_form s self _ hlock]
    simp only [hguard, Bool.false_eq_true, if_false, if_true, hsys, ne_eq, not_true_eq_false,
      hcur, hne]
    exact ⟨_, _, rfl, set_thread_flag_flag s t TX_TRUE, lock_depth_owned self _, rfl,
      hother TX_TRUE⟩

theorem C14_thread_context_flag_effects_witness :
    (∃ r st, _tx_thread_interrupt_control (sample_thread_state ⟨some 3, 1⟩ 0 (some 3)) 3
        TX_INT_ENABLE = Outcome.completed r st ∧
      (st.threads 3).tx_thread_linux_int_disabled_flag = TX_FALSE ∧
      st._tx_linux_mutex = free_mutex ∧
      lock_depth st._tx_linux_mutex 3 = 0 ∧
      st._tx_linux_global_int_disabled_flag
        = (sample_thread_state ⟨some 3, 1⟩ 0 (some 3))._tx_linux_global_int_disabled_flag ∧
      (∀ u, u ≠ 3 → st.threads u = (sample_thread_state ⟨some 3, 1⟩ 0 (some 3)).threads u)) ∧
    (∃ r st, _tx_thread_interrupt_control (sample_thread_state ⟨some 3, 1⟩ 0 (some 3)) 3
        TX_INT_DISABLE = Outcome.completed r st ∧
      (st.threads 3).tx_thread_linux_int_disabled_flag = TX_TRUE ∧
      lock_depth st._tx_linux_mutex 3
        = lock_depth (sample_thread_state ⟨some 3, 1⟩ 0 (some 3))._tx_linux_mutex 3 + 1 ∧
      st._tx_linux_global_int_disabled_flag
        = (sample_thread_state ⟨some 3, 1⟩ 0 (some 3))._tx_linux_global_int_disabled_flag ∧
      (∀ u, u ≠ 3 → st.threads u = (sample_thread_state ⟨some 3, 1⟩ 0 (some 3)).threads u)) :=
  C14_thread_context_flag_effects (sample_thread_state ⟨some 3, 1⟩ 0 (some 3)) 3 3
    rfl rfl rfl (Or.inr rfl)

/-- C16: out-of-range posture. For every `new_posture` that is neither
`TX_INT_ENABLE` nor `TX_INT_DISABLE` and every non-orphan state, the routine
(and `_tx_thread_interrupt_restore` with such a token) completes and changes
the lock only, with no release: the global disabled flag and every thread
control block are as before, and the caller's recursion depth is one greater
than before the call. -/
theorem C16_out_of_range_posture (s : State) (self : pthread_t) (new_posture : UINT)
    (hne : new_posture ≠ TX_INT_ENABLE) (hnd : new_posture ≠ TX_INT_DISABLE)
    (hguard : orphan_guard s self = false)
    (hlock : lock_available s._tx_linux_mutex self) :
    ∃ st, _tx_thread_interrupt_control s self new_posture
        = Outcome.completed (posture_in_effect s self) st ∧
      _tx_thread_interrupt_restore s self new_posture = Outcome.completed () st ∧
      st = { s with _tx_linux_mutex := st._tx_linux_mutex } ∧
      pthread_mutex_lock s._tx_linux_mutex self = some st._tx_linux_mutex ∧
      lock_depth st._tx_linux_mutex self = lock_depth s._tx_linux_mutex self + 1 ∧
      st._tx_linux_global_int_disabled_flag = s._tx_linux_global_int_disabled_flag ∧
      st.threads = s.threads := by
  have h : _tx_thread_interrupt_control s self new_posture
      = Outcome.completed (posture_in_effect s self)
          { s with _tx_linux_mutex :=
              { owner := some self, count := lock_depth s._tx_linux_mutex self + 1 } } := by
    rw [interrupt_control_closed_form s self new_posture hlock]
    simp only [hguard, Bool.false_eq_true, if_false, hne, hnd]
    cases s._tx_thread_current_ptr <;> simp
  exact ⟨_, h, interrupt_restore_completed _ _ _ _ _ h, rfl,
    pthread_mutex_lock_available _ _ hlock, lock_depth_owned self _, rfl, rfl⟩

theorem C16_out_of_range_posture_witness :
    ∃ st, _tx_thread_interrupt_control (sample_thread_state ⟨some 3, 1⟩ 0 (some 3)) 3 2
        = Outcome.completed (posture_in_effect (sample_thread_state ⟨some 3, 1⟩ 0 (some 3)) 3) st ∧
      _tx_thread_interrupt_restore (sample_thread_state ⟨some 3, 1⟩ 0 (some 3)) 3 2
        = Outcome.completed () st ∧
      st = { sample_thread_state ⟨some 3, 1⟩ 0 (some 3) with
             _tx_linux_mutex := st._tx_linux_mutex } ∧
      pthread_mutex_lock (sample_thread_state ⟨some 3, 1⟩ 0 (some 3))._tx_linux_mutex 3
        = some st._tx_linux_mutex ∧
      lock_depth st._tx_linux_mutex 3
        = lock_depth (sample_thread_state ⟨some 3, 1⟩ 0 (some 3))._tx_linux_mutex 3 + 1 ∧
      st._tx_linux_global_int_disabled_flag
        = (sample_thread_state ⟨some 3, 1⟩ 0 (some 3))._tx_linux_global_int_disabled_flag ∧
      st.threads = (sample_thread_state ⟨some 3, 1⟩ 0 (some 3)).threads :=
  C16_out_of_range_posture (sample_thread_state ⟨some 3, 1⟩ 0 (some 3)) 3 2
    (by decide) (by decide) rfl (Or.inr rfl)

/-- C17: system state takes precedence over the thread context. Whenever
`_tx_thread_system_state` is non-zero and the guard does not fire, the routine
completes for every `new_posture` and leaves every thread control block, the
current thread's disabled flag included, as before the call, also when a
matching current thread exists; only the global disabled flag and the lock can
differ. -/
theorem C17_system_state_precedence (s : State) (self : pthread_t) (new_posture : UINT)
    (hsys : s._tx_thread_system_state ≠ 0)
    (hguard : orphan_guard s self = false)
    (hlock : lock_available s._tx_linux_mutex self) :
    ∃ r st, _tx_thread_interrupt_control s self new_posture = Outcome.completed r st ∧
      st.threads = s.threads ∧
      (∀ t, s._tx_thread_current_ptr = some t →
        (st.threads t).tx_thread_linux_int_disabled_flag
          = (s.threads t).tx_thread_linux_int_disabled_flag) ∧
      st = { s with _tx_linux_mutex := st._tx_linux_mutex,
                    _tx_linux_global_int_disabled_flag :=
                      st._tx_linux_global_int_disabled_flag } := by
  rw [interrupt_control_closed_form s self new_posture hlock]
  simp only [hguard, Bool.false_eq_true, if_false, hsys, ne_eq, not_false_eq_true, if_true]
  split_ifs <;> exact ⟨_, _, rfl, rfl, fun _ _ => rfl, rfl⟩

theorem C17_system_state_precedence_witness :
    ∃ r st, _tx_thread_interrupt_control (sample_thread_state free_mutex 1 (some 3)) 3
        TX_INT_DISABLE = Outcome.completed r st ∧
      st.threads = (sample_thread_state free_mutex 1 (some 3)).threads ∧
      (∀ t, (sample_thread_state free_mutex 1 (some 3))._tx_thread_current_ptr = some t →
        (st.threads t).tx_thread_linux_int_disabled_flag
          = ((sample_thread_state free_mutex 1 (some 3)).threads t).tx_thread_linux_int_disabled_flag) ∧
      st = { sample_thread_state free_mutex 1 (some 3) with
             _tx_linux_mutex := st._tx_linux_mutex,
             _tx_linux_global_int_disabled_flag := st._tx_linux_global_int_disabled_flag } :=
  C17_system_state_precedence (sample_thread_state free_mutex 1 (some 3)) 3 TX_INT_DISABLE
    (by decide) rfl (Or.inl rfl)

/-- C18: the returned old posture depends neither on the request nor on the
flags. For two non-orphan states with the same lock (owner and recursion
count) and two `new_posture` values, the routine called by the same host
thread returns the same old posture in both, whatever
`_tx_thread_system_state`, the global disabled flag and the thread control
blocks are; and both calls complete when the lock is free or owned by the
caller. -/
theorem C18_old_posture_depends_on_lock_only (s1 s2 : State) (self : pthread_t) (p1 p2 : UINT)
    (hmutex : s1._tx_linux_mutex = s2._tx_linux_mutex)
    (hguard1 : orphan_guard s1 self = false) (hguard2 : orphan_guard s2 self = false) :
    (_tx_thread_interrupt_control s1 self p1).ret?
      = (_tx_thread_interrupt_control s2 self p2).ret? ∧
    (lock_available s1._tx_linux_mutex self →
      ∃ r st1 st2, _tx_thread_interrupt_control s1 self p1 = Outcome.completed r st1 ∧
        _tx_thread_interrupt_control s2 self p2 = Outcome.completed r st2) := by
  have hcompl : lock_available s1._tx_linux_mutex self →
      ∃ r st1 st2, _tx_thread_interrupt_control s1 self p1 = Outcome.completed r st1 ∧
        _tx_thread_interrupt_control s2 self p2 = Outcome.completed r st2 := by
    intro hl
    obtain ⟨st1, h1⟩ := interrupt_control_completes s1 self p1 hl hguard1
    obtain ⟨st2, h2⟩ := interrupt_control_completes s2 self p2 (hmutex ▸ hl) hguard2
    have hp : posture_in_effect s2 self = posture_in_effect s1 self := by
      unfold posture_in_effect; rw [hmutex]
    rw [hp] at h2
    exact ⟨_, st1, st2, h1, h2⟩
  refine ⟨?_, hcompl⟩
  by_cases hl : lock_available s1._tx_linux_mutex self
  · obtain ⟨r, st1, st2, h1, h2⟩ := hcompl hl
    rw [h1, h2]; rfl
  · rw [interrupt_control_blocked s1 self p1 hl,
      interrupt_control_blocked s2 self p2 (hmutex ▸ hl)]

theorem C18_old_posture_depends_on_lock_only_witness :
    (_tx_thread_interrupt_control (sample_state ⟨some 3, 2⟩ 1 none) 3 TX_INT_ENABLE).ret?
      = (_tx_thread_interrupt_control (sample_thread_state ⟨some 3, 2⟩ 0 (some 3)) 3
          TX_INT_DISABLE).ret? ∧
    (lock_available (sample_state ⟨some 3, 2⟩ 1 none)._tx_linux_mutex 3 →
      ∃ r st1 st2, _tx_thread_interrupt_control (sample_state ⟨some 3, 2⟩ 1 none) 3
          TX_INT_ENABLE = Outcome.completed r st1 ∧
        _tx_thread_interrupt_control (sample_thread_state ⟨some 3, 2⟩ 0 (some 3)) 3
          TX_INT_DISABLE = Outcome.completed r st2) :=
  C18_old_posture_depends_on_lock_only (sample_state ⟨some 3, 2⟩ 1 none)
    (sample_thread_state ⟨some 3, 2⟩ 0 (some 3)) 3 TX_INT_ENABLE TX_INT_DISABLE rfl rfl rfl

/-! ## Two host threads -/

theorem region_owner (s : State) (a : pthread_t) (h : in_disabled_region s a) :
    s._tx_linux_mutex.owner = some a := by
  unfold in_disabled_region lock_depth at h
  by_contra hne
  simp [hne] at h

/-- No state has two host threads inside a DISABLED region. -/
theorem region_exclusive (s : State) (a b : pthread_t) (hab : a ≠ b) :
    ¬ (in_disabled_region s a ∧ in_disabled_region s b) := by
  rintro ⟨ha, hb⟩
  have h1 := region_owner s a ha
  have h2 := region_owner s b hb
  rw [h1] at h2
  exact hab (Option.some.inj h2)

/-- While host thread `a` is inside a DISABLED region, every wrapper call of
another host thread waits at the entry acquisition. -/
theorem run_blocked_of_region (s : State) (a x : pthread_t) (c : WrapperCall)
    (hx : x ≠ a) (h : in_disabled_region s a) :
    WrapperCall.run c s x = Outcome.blocked := by
  have ho := region_owner s a h
  have hna : ¬ lock_available s._tx_linux_mutex x := by
    rintro (h1 | h1)
    · rw [ho] at h1; cases h1
    · rw [ho] at h1; exact hx (Option.some.inj h1).symm
  cases c with
  | disable =>
    have e : WrapperCall.run WrapperCall.disable s x
        = (_tx_thread_interrupt_control s x TX_INT_DISABLE).discard := rfl
    rw [e, interrupt_control_blocked s x _ hna]; rfl
  | restore token =>
    have e : WrapperCall.run (WrapperCall.restore token) s x
        = _tx_thread_interrupt_restore s x token := rfl
    rw [e]
    unfold _tx_thread_interrupt_restore
    rw [interrupt_control_blocked s x token hna]

theorem attempt_of_region (s : State) (a x : pthread_t) (c : WrapperCall)
    (hx : x ≠ a) (h : in_disabled_region s a) : attempt s x c = s := by
  unfold attempt
  rw [run_blocked_of_region s a x c hx h]

theorem interleave_of_region (a : pthread_t) :
    ∀ (sched : List (pthread_t × WrapperCall)) (s : State),
      in_disabled_region s a → (∀ e ∈ sched, e.1 ≠ a) → interleave s sched = s := by
  intro sched
  induction sched with
  | nil => intro s _ _; rfl
  | cons e rest ih =>
    intro s h hs
    rw [interleave, attempt_of_region s a e.1 e.2 (hs e (List.mem_cons_self e rest)) h]
    exact ih s h (fun e2 he2 => hs e2 (List.mem_cons_of_mem e he2))

end ThreadX
